import Mathlib

/-!
Shallow embedding of `src/kernel/nanokernel/core/nano_stack.c`, the VxMicro
nanokernel LIFO 'stack' object, together with proofs of its specified
properties.

Modelling choices:
* `uint32_t` data words and `tCCS *` context handles are modelled as `Nat`
  (no arithmetic is ever performed on them, only stores and loads).
* The word-addressed memory holding the caller-supplied backing buffer is a
  total function `Nat → Nat`; the pointers `base` and `next` are word
  addresses into it.  This mirrors the C code's unchecked pointer stores:
  a push past the caller's buffer simply writes to the next address.
* The interrupt mask (`irq_lock_inline` / `irq_unlock_inline`) makes each
  routine's body one atomic state transition, so every routine is a pure
  function on the kernel state.
-/

namespace Zephyr

/-- `struct nano_stack`: the start of the backing buffer (`base`), the
one-past-top pointer (`next`), and the single waiting context (`proc`,
a `tCCS *` where `none` models the C `NULL`). -/
structure NanoStack where
  base : Nat
  next : Nat
  proc : Option Nat
deriving Repr, DecidableEq

/-- The kernel state visible to the stack routines: the stack object, the
word-addressed memory containing the backing buffer, the pending-return-value
slot of each context, and the scheduler's ready list of fibers. -/
structure Kernel where
  chan   : NanoStack
  mem    : Nat → Nat
  rtn    : Nat → Nat
  fibers : List Nat

/-- Modelled from the spec: `fiberRtnValueSet(ccs, value)` is declared in the
architecture layer outside `src/`; the spec describes it as
`set_pending_return_value(context, value)`, writing the data word into the
context's pending-return-value slot. -/
def fiberRtnValueSet (r : Nat → Nat) (ccs : Nat) (value : Nat) : Nat → Nat :=
  fun c => if c = ccs then value else r c

/-- Modelled from the spec: `_insert_ccs(&_NanoKernel.fiber, ccs)` is the
scheduler's ready-queue insertion, outside `src/`; the spec describes it as
`enqueue_ready(context)`, handing the context to the scheduler's ready set. -/
def _insert_ccs (l : List Nat) (ccs : Nat) : List Nat :=
  ccs :: l

/-- `nano_stack_init(chan, data)`: sets `chan->next = chan->base = data` and
clears `chan->proc`. -/
def nano_stack_init (k : Kernel) (data : Nat) : Kernel :=
  { k with chan := { base := data, next := data, proc := none } }

/-- `_stack_push(chan, data)` (aliased as `nano_isr_stack_push` and
`nano_fiber_stack_push`): under the interrupt mask, if a context is pending
(`chan->proc != NULL`) clear the field, set the context's return value to
`data` and insert it into the ready list; otherwise store `data` at
`*(chan->next)` and advance `chan->next` — no capacity check. -/
def _stack_push (k : Kernel) (data : Nat) : Kernel :=
  match k.chan.proc with
  | some ccs =>
      { k with
        chan := { k.chan with proc := none },
        rtn := fiberRtnValueSet k.rtn ccs data,
        fibers := _insert_ccs k.fibers ccs }
  | none =>
      { k with
        chan := { k.chan with next := k.chan.next + 1 },
        mem := fun a => if a = k.chan.next then data else k.mem a }

/-- `nano_task_stack_push(chan, data)`: same body as `_stack_push`, but in
the waiter branch the task calls `_Swap(imask)` before returning, yielding
the processor to the newly readied fiber.  The returned `Bool` records
whether `_Swap` was invoked. -/
def nano_task_stack_push (k : Kernel) (data : Nat) : Kernel × Bool :=
  match k.chan.proc with
  | some ccs =>
      ({ k with
         chan := { k.chan with proc := none },
         rtn := fiberRtnValueSet k.rtn ccs data,
         fibers := _insert_ccs k.fibers ccs }, true)
  | none =>
      ({ k with
         chan := { k.chan with next := k.chan.next + 1 },
         mem := fun a => if a = k.chan.next then data else k.mem a }, false)

/-- `_stack_pop(chan, pData)` (aliased as `nano_isr_stack_pop`,
`nano_fiber_stack_pop`, `nano_task_stack_pop`): under the interrupt mask, if
`chan->next > chan->base` decrement `next`, copy `*(chan->next)` to
`*pData`, and return 1; otherwise return 0.  `pData` is the word address of
the caller's output slot. -/
def _stack_pop (k : Kernel) (pData : Nat) : Kernel × Nat :=
  if k.chan.base < k.chan.next then
    ({ k with
       chan := { k.chan with next := k.chan.next - 1 },
       mem := fun a => if a = pData then k.mem (k.chan.next - 1) else k.mem a },
     1)
  else
    (k, 0)

/-- Result of `nano_fiber_stack_pop_wait`: either the fiber returned at once
with a data word popped from the buffer, or it registered itself as the
waiter and suspended via `_Swap` (the popped value then arrives in its
pending-return-value slot when a push wakes it). -/
inductive PopWaitOutcome where
  | got (data : Nat)
  | pending
deriving Repr, DecidableEq

/-- `nano_fiber_stack_pop_wait(chan)` running as context `current`
(`_NanoKernel.current`): under the interrupt mask, if `chan->next ==
chan->base` store `current` in `chan->proc` and suspend via `_Swap(imask)`;
otherwise decrement `next` and return `*(chan->next)`. -/
def nano_fiber_stack_pop_wait (k : Kernel) (current : Nat) :
    Kernel × PopWaitOutcome :=
  if k.chan.next = k.chan.base then
    ({ k with chan := { k.chan with proc := some current } },
     PopWaitOutcome.pending)
  else
    ({ k with chan := { k.chan with next := k.chan.next - 1 } },
     PopWaitOutcome.got (k.mem (k.chan.next - 1)))

/-- The exit path of `nano_task_stack_pop_wait(chan)`: the polling loop
breaks out as soon as it observes `chan->next > chan->base` (idling while
empty), then decrements `next` and copies `*(chan->next)`.  This function is
that loop body on the non-empty observation. -/
def nano_task_stack_pop_wait_body (k : Kernel) : Kernel × Nat :=
  ({ k with chan := { k.chan with next := k.chan.next - 1 } },
   k.mem (k.chan.next - 1))

/-- States of the kernel reachable from an initialized stack by any sequence
of the stack routines (the task-variant poll exits only when the buffer is
non-empty). -/
inductive Reachable : Kernel → Prop where
  | init (k : Kernel) (data : Nat) : Reachable (nano_stack_init k data)
  | push (k : Kernel) (v : Nat) : Reachable k → Reachable (_stack_push k v)
  | task_push (k : Kernel) (v : Nat) :
      Reachable k → Reachable (nano_task_stack_push k v).1
  | pop (k : Kernel) (pData : Nat) :
      Reachable k → Reachable (_stack_pop k pData).1
  | fiber_pop_wait (k : Kernel) (current : Nat) :
      Reachable k → Reachable (nano_fiber_stack_pop_wait k current).1
  | task_pop_wait (k : Kernel) :
      Reachable k → k.chan.base < k.chan.next →
      Reachable (nano_task_stack_pop_wait_body k).1

/-- One client operation on the stack: a push of a data word or a
non-blocking pop. -/
inductive StackOp where
  | push (v : Nat)
  | pop
deriving Repr, DecidableEq

/-- Run a sequence of client operations through the C routines, collecting
each pop's observation: `some v` when `_stack_pop` returned 1 and wrote `v`
into the output slot at address `pData`, `none` when it returned 0. -/
def runOps (k : Kernel) (pData : Nat) : List StackOp → List (Option Nat)
  | [] => []
  | StackOp.push v :: ops => runOps (_stack_push k v) pData ops
  | StackOp.pop :: ops =>
      (if (_stack_pop k pData).2 = 1
       then some ((_stack_pop k pData).1.mem pData)
       else none) :: runOps (_stack_pop k pData).1 pData ops

/-- Specification-level model of the same operation sequence: the stack is a
plain list (head = last value pushed); pop on an empty list reports
"not found" (`none`). -/
def runOpsSpec : List Nat → List StackOp → List (Option Nat)
  | _, [] => []
  | l, StackOp.push v :: ops => runOpsSpec (v :: l) ops
  | [], StackOp.pop :: ops => none :: runOpsSpec [] ops
  | d :: l, StackOp.pop :: ops => some d :: runOpsSpec l ops

/-- The buffer at addresses `b, b+1, …` holds the list `l` with the head of
`l` at the highest occupied address (the top of the stack). -/
def matchesBuf (m : Nat → Nat) (b : Nat) : List Nat → Prop
  | [] => True
  | d :: t => m (b + t.length) = d ∧ matchesBuf m b t

/-- Changing the memory only at addresses outside `[b, b + l.length)`
preserves `matchesBuf`. -/
theorem matchesBuf_congr {m m' : Nat → Nat} {b : Nat} :
    ∀ {l : List Nat}, (∀ i, i < l.length → m' (b + i) = m (b + i)) →
      matchesBuf m b l → matchesBuf m' b l
  | [], _, _ => trivial
  | d :: t, h, ⟨h1, h2⟩ =>
    ⟨(h t.length (by simp)).trans h1,
     matchesBuf_congr (fun i hi => h i (by simp; omega)) h2⟩

/-- C8: `nano_stack_init` sets both `next` and `base` to the supplied
storage pointer and clears the waiting-context field, so right after
initialization the buffer is empty (`next = base`) and no waiter is
registered. -/
theorem nano_stack_init_spec (k : Kernel) (data : Nat) :
    (nano_stack_init k data).chan.next = data ∧
    (nano_stack_init k data).chan.base = data ∧
    (nano_stack_init k data).chan.proc = none ∧
    (nano_stack_init k data).chan.next = (nano_stack_init k data).chan.base :=
  ⟨rfl, rfl, rfl, rfl⟩

/-- C5: non-blocking pop with `next > base` decrements `next`, copies the
value at the new top into the caller's output slot (touching no other
memory), and returns 1; otherwise it returns 0 and leaves the whole state —
output slot included — unchanged. -/
theorem _stack_pop_spec (k : Kernel) (pData : Nat) :
    (k.chan.base < k.chan.next →
      (_stack_pop k pData).2 = 1 ∧
      (_stack_pop k pData).1.chan.next = k.chan.next - 1 ∧
      (_stack_pop k pData).1.chan.base = k.chan.base ∧
      (_stack_pop k pData).1.chan.proc = k.chan.proc ∧
      (_stack_pop k pData).1.mem pData = k.mem (k.chan.next - 1) ∧
      (∀ a, a ≠ pData → (_stack_pop k pData).1.mem a = k.mem a)) ∧
    (¬ k.chan.base < k.chan.next →
      (_stack_pop k pData).2 = 0 ∧ (_stack_pop k pData).1 = k) := by
  constructor
  · intro h
    simp [_stack_pop, h]
    intro a ha hc
    exact absurd hc ha
  · intro h
    simp [_stack_pop, h]

/-- Witness for C5: both branches exercised on concrete one-element and
empty stacks. -/
theorem _stack_pop_spec_witness :
    (_stack_pop ⟨⟨0, 1, none⟩, (fun _ => 5), (fun _ => 0), []⟩ 7).2 = 1 ∧
    (_stack_pop ⟨⟨3, 3, none⟩, (fun _ => 5), (fun _ => 0), []⟩ 7).2 = 0 :=
  ⟨((_stack_pop_spec ⟨⟨0, 1, none⟩, (fun _ => 5), (fun _ => 0), []⟩ 7).1
      (by decide)).1,
   ((_stack_pop_spec ⟨⟨3, 3, none⟩, (fun _ => 5), (fun _ => 0), []⟩ 7).2
      (by decide)).1⟩

/-- C10: non-blocking pop on an empty stack (`next = base`) returns 0
("not found") and leaves the entire kernel state — `base`, `next`, the
waiting-context field, and all memory — exactly as it was. -/
theorem _stack_pop_empty_frame (k : Kernel) (pData : Nat)
    (h : k.chan.next = k.chan.base) :
    _stack_pop k pData = (k, 0) := by
  simp [_stack_pop, h]

/-- Witness for C10: pop on a concrete empty stack. -/
theorem _stack_pop_empty_frame_witness :
    _stack_pop ⟨⟨4, 4, none⟩, (fun _ => 9), (fun _ => 0), []⟩ 2
      = (⟨⟨4, 4, none⟩, (fun _ => 9), (fun _ => 0), []⟩, 0) :=
  _stack_pop_empty_frame ⟨⟨4, 4, none⟩, (fun _ => 9), (fun _ => 0), []⟩ 2 rfl

/-- C2: after a fiber pop-or-wait issued on an empty buffer (it suspends,
registering itself), a push of `v` clears the waiter field, delivers exactly
`v` into that waiter's pending-return-value slot, inserts the context into
the scheduler's ready list, and leaves `base`, `next` and the whole memory
(hence the buffer) untouched. -/
theorem pop_wait_then_push_handoff (k : Kernel) (c v : Nat)
    (hempty : k.chan.next = k.chan.base) :
    (nano_fiber_stack_pop_wait k c).2 = PopWaitOutcome.pending ∧
    (_stack_push (nano_fiber_stack_pop_wait k c).1 v).chan.proc = none ∧
    (_stack_push (nano_fiber_stack_pop_wait k c).1 v).rtn c = v ∧
    c ∈ (_stack_push (nano_fiber_stack_pop_wait k c).1 v).fibers ∧
    (_stack_push (nano_fiber_stack_pop_wait k c).1 v).chan.base
      = k.chan.base ∧
    (_stack_push (nano_fiber_stack_pop_wait k c).1 v).chan.next
      = k.chan.next ∧
    (_stack_push (nano_fiber_stack_pop_wait k c).1 v).mem = k.mem := by
  simp [nano_fiber_stack_pop_wait, hempty, _stack_push, fiberRtnValueSet,
    _insert_ccs]

/-- Witness for C2: a concrete empty stack, waiter 7, push of 42. -/
theorem pop_wait_then_push_handoff_witness :
    (_stack_push
      (nano_fiber_stack_pop_wait
        ⟨⟨0, 0, none⟩, (fun _ => 0), (fun _ => 0), []⟩ 7).1 42).rtn 7 = 42 :=
  (pop_wait_then_push_handoff
    ⟨⟨0, 0, none⟩, (fun _ => 0), (fun _ => 0), []⟩ 7 42 rfl).2.2.1

/-- C4: the task-variant push performs exactly the state change of
`_stack_push` in both branches; it invokes `_Swap` (yields to the scheduler)
precisely when a waiter was registered, and does not yield when the data is
stored in the buffer. -/
theorem nano_task_stack_push_spec (k : Kernel) (v : Nat) :
    (k.chan.proc ≠ none →
      nano_task_stack_push k v = (_stack_push k v, true)) ∧
    (k.chan.proc = none →
      nano_task_stack_push k v = (_stack_push k v, false)) := by
  constructor
  · intro h
    cases hp : k.chan.proc with
    | none => exact absurd hp h
    | some c => simp [nano_task_stack_push, _stack_push, hp]
  · intro h
    simp [nano_task_stack_push, _stack_push, h]

/-- Witness for C4: with waiter 3 registered the task push yields; with no
waiter it does not. -/
theorem nano_task_stack_push_spec_witness :
    (nano_task_stack_push
        ⟨⟨0, 0, some 3⟩, (fun _ => 0), (fun _ => 0), []⟩ 8).2 = true ∧
    (nano_task_stack_push
        ⟨⟨0, 0, none⟩, (fun _ => 0), (fun _ => 0), []⟩ 8).2 = false :=
  ⟨by
    rw [(nano_task_stack_push_spec
      ⟨⟨0, 0, some 3⟩, (fun _ => 0), (fun _ => 0), []⟩ 8).1 (by decide)],
   by
    rw [(nano_task_stack_push_spec
      ⟨⟨0, 0, none⟩, (fun _ => 0), (fun _ => 0), []⟩ 8).2 rfl]⟩

/-- C6: fiber pop-or-wait on a non-empty buffer (`next > base`) returns at
once with the value at the new top — exactly the value and `chan` update
that non-blocking pop produces — never writes the waiting-context field,
and does not suspend. -/
theorem nano_fiber_stack_pop_wait_nonempty (k : Kernel) (c pData : Nat)
    (h : k.chan.base < k.chan.next) :
    (nano_fiber_stack_pop_wait k c).2
      = PopWaitOutcome.got (k.mem (k.chan.next - 1)) ∧
    (nano_fiber_stack_pop_wait k c).1.chan.proc = k.chan.proc ∧
    (nano_fiber_stack_pop_wait k c).1.chan.next = k.chan.next - 1 ∧
    (nano_fiber_stack_pop_wait k c).1.chan.base = k.chan.base ∧
    (nano_fiber_stack_pop_wait k c).1.mem = k.mem ∧
    (nano_fiber_stack_pop_wait k c).1.chan = (_stack_pop k pData).1.chan ∧
    (nano_fiber_stack_pop_wait k c).2
      = PopWaitOutcome.got ((_stack_pop k pData).1.mem pData) := by
  have hne : k.chan.next ≠ k.chan.base := by omega
  simp [nano_fiber_stack_pop_wait, hne, _stack_pop, h]

/-- Witness for C6: a concrete one-element stack holding 11. -/
theorem nano_fiber_stack_pop_wait_nonempty_witness :
    (nano_fiber_stack_pop_wait
        ⟨⟨0, 1, none⟩, (fun _ => 11), (fun _ => 0), []⟩ 5).2
      = PopWaitOutcome.got 11 :=
  (nano_fiber_stack_pop_wait_nonempty
    ⟨⟨0, 1, none⟩, (fun _ => 11), (fun _ => 0), []⟩ 5 9 (by decide)).1

/-- C7: a push with no waiter always stores the data word at `*next` and
advances `next` by one — there is no capacity check and no error branch on
any path — and whenever the buffered item count `next - base` is strictly
below the caller's capacity, the store address lies inside the backing
buffer `[base, base + cap)`. -/
theorem _stack_push_no_bounds_check (k : Kernel) (v cap : Nat)
    (hproc : k.chan.proc = none) :
    ((_stack_push k v).mem k.chan.next = v ∧
     (_stack_push k v).chan.next = k.chan.next + 1 ∧
     (_stack_push k v).chan.base = k.chan.base ∧
     (_stack_push k v).chan.proc = none ∧
     (∀ a, a ≠ k.chan.next → (_stack_push k v).mem a = k.mem a)) ∧
    (k.chan.base ≤ k.chan.next → k.chan.next - k.chan.base < cap →
      k.chan.base ≤ k.chan.next ∧ k.chan.next < k.chan.base + cap) := by
  constructor
  · simp [_stack_push, hproc]
    intro a ha hc
    exact absurd hc ha
  · intro h1 h2
    omega

/-- Witness for C7: pushing 6 onto a concrete empty stack with capacity 4
stores at the in-bounds address `base`. -/
theorem _stack_push_no_bounds_check_witness :
    (_stack_push ⟨⟨2, 2, none⟩, (fun _ => 0), (fun _ => 0), []⟩ 6).mem 2 = 6 ∧
    (2 : Nat) < 2 + 4 :=
  ⟨((_stack_push_no_bounds_check
      ⟨⟨2, 2, none⟩, (fun _ => 0), (fun _ => 0), []⟩ 6 4 rfl).1).1,
   ((_stack_push_no_bounds_check
      ⟨⟨2, 2, none⟩, (fun _ => 0), (fun _ => 0), []⟩ 6 4 rfl).2
      (by decide) (by decide)).2⟩

/-- C9: with a waiter `c1` already registered, a second fiber pop-or-wait
by `c2` either finds the buffer non-empty and pops directly (leaving `c1`
registered), or — the buffer being empty — silently overwrites the single
waiter slot with `c2`. -/
theorem single_waiter_replacement (k : Kernel) (c1 c2 : Nat)
    (h : k.chan.proc = some c1) :
    (k.chan.next ≠ k.chan.base →
      (nano_fiber_stack_pop_wait k c2).2
        = PopWaitOutcome.got (k.mem (k.chan.next - 1)) ∧
      (nano_fiber_stack_pop_wait k c2).1.chan.proc = some c1) ∧
    (k.chan.next = k.chan.base →
      (nano_fiber_stack_pop_wait k c2).1.chan.proc = some c2 ∧
      (nano_fiber_stack_pop_wait k c2).2 = PopWaitOutcome.pending) := by
  constructor
  · intro hne
    simp [nano_fiber_stack_pop_wait, hne, h]
  · intro he
    simp [nano_fiber_stack_pop_wait, he]

/-- Witness for C9: waiter 1 registered on an empty stack is replaced by a
second pop-or-wait from context 2. -/
theorem single_waiter_replacement_witness :
    (nano_fiber_stack_pop_wait
        ⟨⟨0, 0, some 1⟩, (fun _ => 0), (fun _ => 0), []⟩ 2).1.chan.proc
      = some 2 :=
  ((single_waiter_replacement
      ⟨⟨0, 0, some 1⟩, (fun _ => 0), (fun _ => 0), []⟩ 1 2 rfl).2 rfl).1

/-- C3: in every reachable state of an initialized stack, the
waiting-context field is non-empty only while `next = base` (the buffer is
empty), and a push that finds a waiter clears the field in the same
critical section in which it wakes the waiter. -/
theorem waiter_only_when_empty :
    (∀ k, Reachable k → k.chan.proc ≠ none → k.chan.next = k.chan.base) ∧
    (∀ (k : Kernel) (c v : Nat), k.chan.proc = some c →
      (_stack_push k v).chan.proc = none) := by
  constructor
  · intro k hk
    induction hk with
    | init k data =>
      intro h
      exact absurd rfl h
    | push k v a ih =>
      intro h
      cases hp : k.chan.proc with
      | some c => simp [_stack_push, hp] at h
      | none => simp [_stack_push, hp] at h
    | task_push k v a ih =>
      intro h
      cases hp : k.chan.proc with
      | some c => simp [nano_task_stack_push, hp] at h
      | none => simp [nano_task_stack_push, hp] at h
    | pop k pData a ih =>
      intro h
      by_cases hlt : k.chan.base < k.chan.next
      · have hproc : k.chan.proc ≠ none := by
          simpa [_stack_pop, hlt] using h
        have heq := ih hproc
        simp [_stack_pop, hlt]
        omega
      · simp [_stack_pop, hlt] at h ⊢
        exact ih h
    | fiber_pop_wait k current a ih =>
      intro h
      by_cases he : k.chan.next = k.chan.base
      · simp [nano_fiber_stack_pop_wait, he]
      · have hproc : k.chan.proc ≠ none := by
          simpa [nano_fiber_stack_pop_wait, he] using h
        exact absurd (ih hproc) he
    | task_pop_wait k a hlt ih =>
      intro h
      have hproc : k.chan.proc ≠ none := by
        simpa [nano_task_stack_pop_wait_body] using h
      exact absurd (ih hproc) (by omega)
  · intro k c v h
    simp [_stack_push, h]

/-- Witness for C3: the state reached by initializing and letting fiber 7
pop-or-wait is empty while 7 waits, and a push clears the waiter field. -/
theorem waiter_only_when_empty_witness :
    (nano_fiber_stack_pop_wait
        (nano_stack_init ⟨⟨9, 9, none⟩, (fun _ => 0), (fun _ => 0), []⟩ 0)
        7).1.chan.next
      = (nano_fiber_stack_pop_wait
        (nano_stack_init ⟨⟨9, 9, none⟩, (fun _ => 0), (fun _ => 0), []⟩ 0)
        7).1.chan.base ∧
    (_stack_push (nano_fiber_stack_pop_wait
        (nano_stack_init ⟨⟨9, 9, none⟩, (fun _ => 0), (fun _ => 0), []⟩ 0)
        7).1 5).chan.proc = none :=
  ⟨waiter_only_when_empty.1 _
      (Reachable.fiber_pop_wait _ 7 (Reachable.init _ 0)) (by decide),
   waiter_only_when_empty.2 _ 7 5 (by decide)⟩

/-- With no waiter registered, the C routines refine the list model: a
kernel state whose buffer holds `l` (and whose output slot lies below the
buffer) produces the same pop observations as the specification stack `l`. -/
theorem runOps_refines (ops : List StackOp) :
    ∀ (k : Kernel) (l : List Nat) (pData : Nat),
      k.chan.proc = none →
      pData < k.chan.base →
      k.chan.next = k.chan.base + l.length →
      matchesBuf k.mem k.chan.base l →
      runOps k pData ops = runOpsSpec l ops := by
  induction ops with
  | nil =>
    intro k l pData _ _ _ _
    cases l <;> rfl
  | cons op ops ih =>
    intro k l pData hproc hp hnext hbuf
    cases op with
    | push v =>
      simp only [runOps, runOpsSpec]
      apply ih
      · simp [_stack_push, hproc]
      · simpa [_stack_push, hproc] using hp
      · simp [_stack_push, hproc]
        omega
      · simp only [_stack_push, hproc]
        refine ⟨by simp [hnext], ?_⟩
        exact matchesBuf_congr (fun i hi => if_neg (by omega)) hbuf
    | pop =>
      cases l with
      | nil =>
        have hnb : ¬ k.chan.base < k.chan.next := by
          simp at hnext
          omega
        have hpop : _stack_pop k pData = (k, 0) := by
          simp [_stack_pop, hnb]
        simp only [runOps, runOpsSpec, hpop]
        refine congrArg₂ List.cons (by norm_num) ?_
        exact ih k [] pData hproc hp hnext trivial
      | cons d t =>
        have hnext' : k.chan.next = k.chan.base + t.length + 1 := by
          simp [List.length_cons] at hnext
          omega
        have hlt : k.chan.base < k.chan.next := by omega
        obtain ⟨hd, ht⟩ := hbuf
        have hread : k.mem (k.chan.next - 1) = d := by
          have he : k.chan.next - 1 = k.chan.base + t.length := by omega
          rw [he]
          exact hd
        have h2 : (_stack_pop k pData).2 = 1 := by
          simp [_stack_pop, hlt]
        have hproc2 : (_stack_pop k pData).1.chan.proc = none := by
          simp [_stack_pop, hlt, hproc]
        have hbase2 : (_stack_pop k pData).1.chan.base = k.chan.base := by
          simp [_stack_pop, hlt]
        have hnext2 : (_stack_pop k pData).1.chan.next
            = k.chan.base + t.length := by
          simp [_stack_pop, hlt]
          omega
        have hmem2 : (_stack_pop k pData).1.mem
            = fun a => if a = pData then k.mem (k.chan.next - 1)
                       else k.mem a := by
          simp [_stack_pop, hlt]
        have hout : (_stack_pop k pData).1.mem pData = d := by
          rw [hmem2]
          simp [hread]
        simp only [runOps, runOpsSpec, h2]
        refine congrArg₂ List.cons (by simp [hout]) ?_
        apply ih
        · exact hproc2
        · rw [hbase2]
          exact hp
        · rw [hnext2, hbase2]
        · rw [hmem2, hbase2]
          exact matchesBuf_congr (fun i hi => if_neg (by omega)) ht

/-- C1: on a freshly initialized stack with no waiter ever registered, every
sequence of pushes and non-blocking pops observes exactly LIFO order, a pop
on an empty buffer reporting "not found"; in particular push 1, 2, 3; pop,
pop; push 9; pop, pop, pop observes 3, 2, 9, 1, not-found. -/
theorem lifo_order (k0 : Kernel) (b pData : Nat) (hp : pData < b) :
    (∀ ops, runOps (nano_stack_init k0 b) pData ops = runOpsSpec [] ops) ∧
    runOps (nano_stack_init k0 b) pData
        [StackOp.push 1, StackOp.push 2, StackOp.push 3, StackOp.pop,
         StackOp.pop, StackOp.push 9, StackOp.pop, StackOp.pop, StackOp.pop]
      = [some 3, some 2, some 9, some 1, none] := by
  have hall : ∀ ops, runOps (nano_stack_init k0 b) pData ops
      = runOpsSpec [] ops := fun ops =>
    runOps_refines ops (nano_stack_init k0 b) [] pData rfl hp rfl trivial
  exact ⟨hall, (hall _).trans (by decide)⟩

/-- Witness for C1: the spec's four-slot scenario run on a concrete kernel
with the buffer at address 1 and the output slot at address 0. -/
theorem lifo_order_witness :
    runOps (nano_stack_init
        ⟨⟨5, 5, some 2⟩, (fun _ => 0), (fun _ => 0), []⟩ 1) 0
        [StackOp.push 1, StackOp.push 2, StackOp.push 3, StackOp.pop,
         StackOp.pop, StackOp.push 9, StackOp.pop, StackOp.pop, StackOp.pop]
      = [some 3, some 2, some 9, some 1, none] :=
  (lifo_order ⟨⟨5, 5, some 2⟩, (fun _ => 0), (fun _ => 0), []⟩ 1 0
    (by decide)).2

end Zephyr
